/-
  Verification of the chatbot core of danielseah/job-application.

  Shallow embedding of the `Chatbot` class (per-user conversation history,
  `handleIncomingMessage` orchestration) and of the adapters the claims
  mention (`ChatGPTAdapter.generateResponse`, `GeminiAdapter.generateResponse`,
  `ConsoleAdapter.sendMessage`), translated from
  src/general/src/adapters/messaging/TelegramAdapter.ts (Chatbot class),
  src/unnamed/part_008 (ChatGPTAdapter), src/general/src/adapters/llm/GeminiAdapter.ts
  and src/general/src/adapters/messaging/ConsoleAdapter.ts.

  Effects are made explicit: a turn is a pure function from the current
  history map, the LLM adapter behaviour (a function from the context sent
  to the provider to its outcome) and the send outcomes (whether the n-th
  `sendMessage` call of the turn resolves) to the new history map, the list
  of `sendMessage` calls made, the context passed to the LLM, and whether
  the returned promise rejects.
-/
import Mathlib

namespace Chatbot

/-- Roles of a chat message, from the `LLMMessage` interface in
`src/interfaces/ILLMAdapter.ts`: `"user" | "assistant" | "system"`. -/
inductive Role where
  | user
  | assistant
  | system
deriving DecidableEq, Repr

/-- Structure `LLMMessage` from `src/interfaces/ILLMAdapter.ts`: a role plus content. -/
structure LLMMessage where
  role : Role
  content : String
deriving DecidableEq, Repr

/-- Inbound message payload (`MessagePayload` in
`src/interfaces/IMessagingPlatformAdapter.ts`).  Only `userId` and `text`
are read by `Chatbot.handleIncomingMessage`; `userName` is kept for
fidelity (it is only logged), and `timestamp`/`originalMessage` are
omitted because no core code path reads them. -/
structure MessagePayload where
  userId : String
  userName : Option String
  text : String
deriving DecidableEq, Repr

/-- Outcome of one `generateResponse` call: resolves with text, or rejects. -/
inductive LLMResult where
  | ok (text : String)
  | err
deriving DecidableEq, Repr

/-- The `conversationHistories` map of the `Chatbot` class
(`UserID -> History`); `none` means the key is absent from the `Map`. -/
def Histories : Type := String → Option (List LLMMessage)

/-- The map with no entries (the `conversationHistories` of a fresh `Chatbot`). -/
def emptyHistories : Histories := fun _ => none

/-- Constant `maxHistoryLength = 10` in `Chatbot.handleIncomingMessage`. -/
def maxHistoryLength : Nat := 10

/-- Offset `systemPromptOffset = history[0]?.role === "system" ? 1 : 0`. -/
def systemPromptOffset (history : List LLMMessage) : Nat :=
  match history.head? with
  | some m => if m.role = Role.system then 1 else 0
  | none => 0

/-- The cap-enforcement step of `Chatbot.handleIncomingMessage`:
`if (history.length > maxHistoryLength) history.splice(systemPromptOffset,
history.length - maxHistoryLength)`.  JavaScript
`splice(start, deleteCount)` removes `deleteCount` elements starting at
index `start`, i.e. keeps `take start ++ drop (start + deleteCount)`. -/
def truncateHistory (history : List LLMMessage) : List LLMMessage :=
  if history.length > maxHistoryLength then
    history.take (systemPromptOffset history) ++
      history.drop (systemPromptOffset history +
        (history.length - maxHistoryLength))
  else history

/-- The fixed empty-completion notice sent by `Chatbot.handleIncomingMessage`
(the string contains two apostrophes, written as hex escapes). -/
def fallbackText : String := "I\x27m sorry, I couldn\x27t generate a response right now."

/-- The fixed generic apology sent by the `catch` block of
`Chatbot.handleIncomingMessage`. -/
def apologyText : String := "Sorry, I encountered an error. Please try again later."

/-- The argument `Chatbot.handleIncomingMessage` passes to
`llmAdapter.generateResponse`: the stored history (a missing map entry is
initialised to `[]`), with the user turn pushed, after cap enforcement. -/
def llmContext (histories : Histories) (payload : MessagePayload) :
    List LLMMessage :=
  truncateHistory ((histories payload.userId).getD [] ++
    [{ role := Role.user, content := payload.text }])

/-- Observable result of one `Chatbot.handleIncomingMessage` turn. -/
structure TurnResult where
  /-- The `conversationHistories` map after the turn. -/
  histories : Histories
  /-- The `sendMessage(userId, text)` calls made during the turn, in order. -/
  sends : List (String × String)
  /-- The message list passed to `llmAdapter.generateResponse`. -/
  llmInput : List LLMMessage
  /-- Whether the promise returned by `handleIncomingMessage` rejects. -/
  threw : Bool

/-- One turn of `Chatbot.handleIncomingMessage`, translated from the
`Chatbot` class compiled alongside `TelegramAdapter.ts`:

1. look up (or lazily create as `[]`) the history for `payload.userId`;
2. push the user message; 3. enforce the cap (`truncateHistory`);
4. call `generateResponse` on the result (`llm` gives its outcome);
5. non-empty text (JS truthiness): push an assistant entry, store, send it;
   empty text `""` (falsy): send `fallbackText`, history left as in step 3;
6. `catch`: any rejection (of `generateResponse` or of the first
   `sendMessage`) leads to one `sendMessage(userId, apologyText)` call,
   whose own rejection escapes the method.

`sendOk n` tells whether the `n`-th `sendMessage` call of the turn
resolves.  Because the JS code mutates the array held by the map in
place, steps 2–3 are reflected in the stored history on every path. -/
def handleIncomingMessage (histories : Histories) (payload : MessagePayload)
    (llm : List LLMMessage → LLMResult) (sendOk : Nat → Bool) : TurnResult :=
  let history := llmContext histories payload
  let store := fun (h : List LLMMessage) (u : String) =>
    if u = payload.userId then some h else histories u
  match llm history with
  | LLMResult.ok text =>
    if text = "" then
      { histories := store history
        sends := (payload.userId, fallbackText) ::
          (if sendOk 0 then [] else [(payload.userId, apologyText)])
        llmInput := history
        threw := if sendOk 0 then false else !sendOk 1 }
    else
      { histories := store (history ++ [{ role := Role.assistant, content := text }])
        sends := (payload.userId, text) ::
          (if sendOk 0 then [] else [(payload.userId, apologyText)])
        llmInput := history
        threw := if sendOk 0 then false else !sendOk 1 }
  | LLMResult.err =>
    { histories := store history
      sends := [(payload.userId, apologyText)]
      llmInput := history
      threw := !sendOk 0 }

/-- One inbound message together with the adapter behaviour during its turn. -/
structure TurnInput where
  payload : MessagePayload
  llm : List LLMMessage → LLMResult
  sendOk : Nat → Bool

/-- Process a sequence of inbound messages, threading the history map. -/
def runTurns : Histories → List TurnInput → Histories
  | hs, [] => hs
  | hs, t :: ts =>
    runTurns (handleIncomingMessage hs t.payload t.llm t.sendOk).histories ts

/-- The stored history of a user in a map (absent entries read as `[]`,
matching how the code initialises them on first contact). -/
def storedHistory (hs : Histories) (userId : String) : List LLMMessage :=
  (hs userId).getD []

/-- Spec-level well-formedness used by the history-shape claim: every entry
after the first is not system-role (the history starts with at most one
system entry). -/
def onlyLeadingSystem (h : List LLMMessage) : Bool :=
  (h.drop 1).all (fun m => m.role != Role.system)

/-- Spec-level alternation used by the history-shape claim: no two
consecutive entries of the same non-system role. -/
def noAdjacentSameNonSystemRole : List LLMMessage → Bool
  | m1 :: m2 :: rest =>
    (!(m1.role == m2.role && m1.role != Role.system)) &&
      noAdjacentSameNonSystemRole (m2 :: rest)
  | _ => true

/-! ### LLM adapters (success path)

`ChatGPTAdapter.generateResponse` (src/unnamed/part_008) and
`GeminiAdapter.generateResponse` (src/general/src/adapters/llm/GeminiAdapter.ts)
both extract a possibly-missing text from the provider completion; the
functions below are their success paths as functions of that extracted
text (`none` models a `null`/`undefined` provider content). -/

/-- JavaScript `String.prototype.trim()` on the underlying character list:
remove leading and trailing whitespace characters. -/
def trimChars (cs : List Char) : List Char :=
  (((cs.dropWhile Char.isWhitespace).reverse).dropWhile Char.isWhitespace).reverse

/-- JavaScript `text.trim()` lifted to `String`. -/
def trimString (s : String) : String := String.mk (trimChars s.data)

/-- Success path of `ChatGPTAdapter.generateResponse`:
`return completion.choices[0]?.message?.content || ""`.  The JS `|| ""`
yields `""` for `null`/`undefined`/`""` and the content itself otherwise,
which agrees with `Option.getD` on every input.  No trimming is applied. -/
def chatGPTGenerateResponse (content : Option String) : String :=
  content.getD ""

/-- Success path of `GeminiAdapter.generateResponse`:
`const text = result.response.candidates?.[0]?.content?.parts?.[0]?.text || "";
return text.trim()`. -/
def geminiGenerateResponse (text : Option String) : String :=
  trimString (text.getD "")

/-- Whether a string has neither leading nor trailing whitespace (the
spec property claimed of `generateResponse` return values). -/
def noEdgeWhitespace (s : String) : Bool :=
  s.data.head?.all (fun c => !c.isWhitespace) &&
    s.data.getLast?.all (fun c => !c.isWhitespace)

/-! ### ConsoleAdapter.sendMessage -/

/-- Constant `ConsoleAdapter.CONSOLE_USER_ID`. -/
def CONSOLE_USER_ID : String := "console_user"

/-- Method `ConsoleAdapter.sendMessage(userId, text)` from
src/general/src/adapters/messaging/ConsoleAdapter.ts, with the rejection
channel made explicit as `Except`.  On the console user it prints
`Bot: <text>`; on any other `userId` it only emits a `console.warn`.
The method body has no throw path, so every input produces `Except.ok`
(the value lists the bot-output lines printed). -/
def consoleSendMessage (userId text : String) : Except String (List String) :=
  if userId = CONSOLE_USER_ID then Except.ok ["Bot: " ++ text]
  else Except.ok []

/-- Whether an adapter call resolves (does not reject). -/
def resolves : Except String (List String) → Bool
  | Except.ok _ => true
  | Except.error _ => false

/-! ### Concrete runs used to instantiate the theorems -/

/-- A turn from user `"A"` whose LLM call resolves with `"r"` and whose
sends all resolve. -/
def okTurn (msgText : String) : TurnInput :=
  { payload := { userId := "A", userName := none, text := msgText }
    llm := fun _ => LLMResult.ok "r"
    sendOk := fun _ => true }

/-- A turn from user `"A"` whose LLM call rejects and whose sends resolve. -/
def errTurn (msgText : String) : TurnInput :=
  { payload := { userId := "A", userName := none, text := msgText }
    llm := fun _ => LLMResult.err
    sendOk := fun _ => true }

/-- A turn from user `"A"` whose LLM call resolves with the empty string. -/
def emptyCompletionTurn (msgText : String) : TurnInput :=
  { payload := { userId := "A", userName := none, text := msgText }
    llm := fun _ => LLMResult.ok ""
    sendOk := fun _ => true }

/-- Six consecutive answered turns of user `"A"`. -/
def sixOkTurns : List TurnInput :=
  [okTurn "m1", okTurn "m2", okTurn "m3", okTurn "m4", okTurn "m5", okTurn "m6"]

/-- Five consecutive answered turns of user `"A"` (history reaches the cap). -/
def fiveOkTurns : List TurnInput :=
  [okTurn "m1", okTurn "m2", okTurn "m3", okTurn "m4", okTurn "m5"]

/-- Five answered turns followed by one empty-completion turn. -/
def fiveOkThenEmptyTurns : List TurnInput :=
  fiveOkTurns ++ [emptyCompletionTurn "m6"]

/-- An inbound payload from user `"A"`. -/
def payloadA : MessagePayload := { userId := "A", userName := none, text := "hi" }

/-- An eleven-entry history with a leading system entry, exceeding the cap. -/
def elevenMessages : List LLMMessage :=
  [{ role := Role.system, content := "s" },
   { role := Role.user, content := "u1" }, { role := Role.assistant, content := "a1" },
   { role := Role.user, content := "u2" }, { role := Role.assistant, content := "a2" },
   { role := Role.user, content := "u3" }, { role := Role.assistant, content := "a3" },
   { role := Role.user, content := "u4" }, { role := Role.assistant, content := "a4" },
   { role := Role.user, content := "u5" }, { role := Role.assistant, content := "a5" }]

/-- The shape invariant maintained between turns when every turn is
answered: no system entries (the code initialises histories to `[]` and
never pushes a system entry), adjacent entries have different roles, and
the history is empty or ends with an assistant entry. -/
def GoodHistory (h : List LLMMessage) : Prop :=
  (∀ m ∈ h, m.role ≠ Role.system) ∧
  List.Chain' (fun a b : LLMMessage => a.role ≠ b.role) h ∧
  (∀ m, h.getLast? = some m → m.role = Role.assistant)

/-! ### Lemmas about the truncation step -/

theorem systemPromptOffset_le_one (h : List LLMMessage) :
    systemPromptOffset h ≤ 1 := by
  unfold systemPromptOffset
  cases h.head? with
  | none => exact Nat.zero_le 1
  | some m =>
    dsimp only
    split
    · exact Nat.le_refl 1
    · exact Nat.zero_le 1

theorem truncateHistory_length_le (h : List LLMMessage) :
    (truncateHistory h).length ≤ maxHistoryLength := by
  unfold truncateHistory
  split
  · have hoff := systemPromptOffset_le_one h
    rename_i hlen
    simp only [List.length_append, List.length_take, List.length_drop,
      maxHistoryLength] at *
    omega
  · rename_i hlen
    omega

theorem truncateHistory_length_of_gt (h : List LLMMessage)
    (hlen : maxHistoryLength < h.length) :
    (truncateHistory h).length = maxHistoryLength := by
  unfold truncateHistory
  rw [if_pos (by omega)]
  have hoff := systemPromptOffset_le_one h
  simp only [List.length_append, List.length_take, List.length_drop,
    maxHistoryLength] at *
  omega

theorem truncateHistory_sublist (h : List LLMMessage) :
    (truncateHistory h).Sublist h := by
  unfold truncateHistory
  split
  · conv_rhs => rw [← List.take_append_drop (systemPromptOffset h) h]
    exact List.Sublist.append_left
      (List.drop_sublist_drop_left h (Nat.le_add_right _ _)) _
  · exact List.Sublist.refl h

theorem getLast?_drop_of_lt {α : Type} {l : List α} {j : Nat}
    (hj : j < l.length) : (l.drop j).getLast? = l.getLast? := by
  conv_rhs => rw [← List.take_append_drop j l]
  rw [List.getLast?_append]
  have hne : l.drop j ≠ [] := by
    rw [ne_eq, List.drop_eq_nil_iff]
    omega
  obtain ⟨x, hx⟩ := Option.isSome_iff_exists.mp
    ((List.getLast?_isSome).mpr hne)
  rw [hx]
  rfl

theorem truncateHistory_getLast? (l : List LLMMessage) (hl : l ≠ []) :
    (truncateHistory l).getLast? = l.getLast? := by
  unfold truncateHistory
  split
  · rename_i hlen
    have hoff := systemPromptOffset_le_one l
    rw [List.getLast?_append, getLast?_drop_of_lt
      (by simp only [maxHistoryLength] at *; omega)]
    obtain ⟨x, hx⟩ := Option.isSome_iff_exists.mp
      ((List.getLast?_isSome).mpr hl)
    rw [hx]
    rfl
  · rfl

theorem systemPromptOffset_eq_zero (l : List LLMMessage)
    (hl : ∀ m ∈ l, m.role ≠ Role.system) : systemPromptOffset l = 0 := by
  unfold systemPromptOffset
  cases hhead : l.head? with
  | none => rfl
  | some m =>
    have hm : m ∈ l := List.mem_of_mem_head? hhead
    dsimp only
    rw [if_neg (hl m hm)]

theorem truncateHistory_chain' (l : List LLMMessage)
    (h0 : systemPromptOffset l = 0)
    (hc : List.Chain' (fun a b : LLMMessage => a.role ≠ b.role) l) :
    List.Chain' (fun a b : LLMMessage => a.role ≠ b.role)
      (truncateHistory l) := by
  unfold truncateHistory
  split
  · rw [h0]
    simpa using hc.drop _
  · exact hc

theorem truncateHistory_noSystem (l : List LLMMessage)
    (hl : ∀ m ∈ l, m.role ≠ Role.system) :
    ∀ m ∈ truncateHistory l, m.role ≠ Role.system :=
  fun m hm => hl m ((truncateHistory_sublist l).subset hm)

/-! ### Structural lemmas about a single turn -/

theorem handle_histories_other (hs : Histories) (p : MessagePayload)
    (llm : List LLMMessage → LLMResult) (sendOk : Nat → Bool) (u : String)
    (hu : u ≠ p.userId) :
    (handleIncomingMessage hs p llm sendOk).histories u = hs u := by
  unfold handleIncomingMessage
  dsimp only
  split
  · split <;> simp [hu]
  · simp [hu]

theorem handle_histories_self (hs : Histories) (p : MessagePayload)
    (llm : List LLMMessage → LLMResult) (sendOk : Nat → Bool) :
    (handleIncomingMessage hs p llm sendOk).histories p.userId =
        some (llmContext hs p) ∨
      ∃ text, text ≠ "" ∧ llm (llmContext hs p) = LLMResult.ok text ∧
        (handleIncomingMessage hs p llm sendOk).histories p.userId =
          some (llmContext hs p ++
            [{ role := Role.assistant, content := text }]) := by
  unfold handleIncomingMessage
  dsimp only
  split
  · rename_i text hllm
    split
    · left
      simp
    · rename_i htext
      right
      exact ⟨text, htext, hllm, by simp⟩
  · left
    simp

theorem handle_llmInput (hs : Histories) (p : MessagePayload)
    (llm : List LLMMessage → LLMResult) (sendOk : Nat → Bool) :
    (handleIncomingMessage hs p llm sendOk).llmInput = llmContext hs p := by
  unfold handleIncomingMessage
  dsimp only
  split
  · split <;> rfl
  · rfl

theorem handle_length_le (hs : Histories) (p : MessagePayload)
    (llm : List LLMMessage → LLMResult) (sendOk : Nat → Bool) (u : String)
    (hu : (storedHistory hs u).length ≤ maxHistoryLength + 1) :
    (storedHistory (handleIncomingMessage hs p llm sendOk).histories u).length
      ≤ maxHistoryLength + 1 := by
  by_cases he : u = p.userId
  · subst he
    rcases handle_histories_self hs p llm sendOk with h | ⟨text, _, _, h⟩
    · rw [storedHistory, h, Option.getD_some]
      exact Nat.le_succ_of_le (truncateHistory_length_le _)
    · rw [storedHistory, h, Option.getD_some, List.length_append]
      have := truncateHistory_length_le
        ((hs p.userId).getD [] ++ [{ role := Role.user, content := p.text }])
      simp only [llmContext, List.length_singleton]
      omega
  · rw [storedHistory, handle_histories_other hs p llm sendOk u he]
    exact hu

theorem handle_histories_self_ok (hs : Histories) (p : MessagePayload)
    (llm : List LLMMessage → LLMResult) (sendOk : Nat → Bool) (s : String)
    (hset : llm (llmContext hs p) = LLMResult.ok s) (hsne : s ≠ "") :
    (handleIncomingMessage hs p llm sendOk).histories p.userId =
      some (llmContext hs p ++ [{ role := Role.assistant, content := s }]) := by
  unfold handleIncomingMessage
  dsimp only
  split
  · rename_i text hteq
    rw [hset] at hteq
    injection hteq with h
    subst h
    split
    · rename_i h
      exact absurd h hsne
    · simp
  · rename_i hteq
    rw [hset] at hteq
    cases hteq

theorem handle_sends (hs : Histories) (p : MessagePayload)
    (llm : List LLMMessage → LLMResult) (sendOk : Nat → Bool) :
    1 ≤ (handleIncomingMessage hs p llm sendOk).sends.length ∧
    (handleIncomingMessage hs p llm sendOk).sends.length ≤ 2 ∧
    (sendOk 0 = true → (handleIncomingMessage hs p llm sendOk).sends.length = 1) ∧
    ∀ s ∈ (handleIncomingMessage hs p llm sendOk).sends, s.1 = p.userId := by
  unfold handleIncomingMessage
  dsimp only
  split
  · split <;> (by_cases h0 : sendOk 0 = true <;> simp [h0])
  · simp

theorem handle_err_path (hs : Histories) (p : MessagePayload)
    (llm : List LLMMessage → LLMResult) (sendOk : Nat → Bool)
    (hllm : llm (llmContext hs p) = LLMResult.err) :
    (handleIncomingMessage hs p llm sendOk).sends = [(p.userId, apologyText)] ∧
    (handleIncomingMessage hs p llm sendOk).histories p.userId =
      some (llmContext hs p) ∧
    (sendOk 0 = true → (handleIncomingMessage hs p llm sendOk).threw = false) := by
  unfold handleIncomingMessage
  dsimp only
  split
  · rename_i text hteq
    rw [hllm] at hteq
    cases hteq
  · refine ⟨rfl, by simp, fun h0 => ?_⟩
    simp [h0]

theorem handle_empty_path (hs : Histories) (p : MessagePayload)
    (llm : List LLMMessage → LLMResult) (sendOk : Nat → Bool)
    (hllm : llm (llmContext hs p) = LLMResult.ok "") :
    (handleIncomingMessage hs p llm sendOk).sends.head? =
      some (p.userId, fallbackText) ∧
    (handleIncomingMessage hs p llm sendOk).histories p.userId =
      some (llmContext hs p) := by
  unfold handleIncomingMessage
  dsimp only
  split
  · rename_i text hteq
    rw [hllm] at hteq
    injection hteq with h
    subst h
    split
    · exact ⟨rfl, by simp⟩
    · rename_i hne
      exact absurd rfl hne
  · rename_i hteq
    rw [hllm] at hteq
    cases hteq

/-! ### Run-level invariants -/

theorem runTurns_length_le_aux : ∀ (ts : List TurnInput) (hs : Histories),
    (∀ v, (storedHistory hs v).length ≤ maxHistoryLength + 1) →
    ∀ u, (storedHistory (runTurns hs ts) u).length ≤ maxHistoryLength + 1
  | [], _, hinv, u => hinv u
  | t :: ts, hs, hinv, u =>
    runTurns_length_le_aux ts _
      (fun v => handle_length_le hs t.payload t.llm t.sendOk v (hinv v)) u

theorem goodHistory_nil : GoodHistory [] :=
  ⟨by simp, List.chain'_nil, by simp⟩

theorem goodHistory_append_user (h : List LLMMessage) (hg : GoodHistory h)
    (utext : String) :
    (∀ m ∈ h ++ [{ role := Role.user, content := utext }],
      m.role ≠ Role.system) ∧
    List.Chain' (fun a b : LLMMessage => a.role ≠ b.role)
      (h ++ [{ role := Role.user, content := utext }]) := by
  obtain ⟨hns, hch, hlast⟩ := hg
  constructor
  · intro m hm
    rcases List.mem_append.mp hm with h1 | h1
    · exact hns m h1
    · simp only [List.mem_singleton] at h1
      subst h1
      simp
  · rw [List.chain'_append]
    refine ⟨hch, List.chain'_singleton _, ?_⟩
    intro x hx y hy
    simp only [List.head?_cons, Option.mem_def, Option.some_inj] at hy
    subst hy
    rw [Option.mem_def] at hx
    rw [hlast x hx]
    simp

theorem goodHistory_turn (h : List LLMMessage) (hg : GoodHistory h)
    (utext atext : String) :
    GoodHistory
      (truncateHistory (h ++ [{ role := Role.user, content := utext }]) ++
        [{ role := Role.assistant, content := atext }]) := by
  obtain ⟨hns1, hch1⟩ := goodHistory_append_user h hg utext
  have hoff : systemPromptOffset (h ++ [{ role := Role.user, content := utext }]) = 0 :=
    systemPromptOffset_eq_zero _ hns1
  have hns2 := truncateHistory_noSystem _ hns1
  have hch2 := truncateHistory_chain' _ hoff hch1
  have hne1 : h ++ [{ role := Role.user, content := utext }] ≠ [] := by simp
  have hlast2 : (truncateHistory
      (h ++ [{ role := Role.user, content := utext }])).getLast? =
      some { role := Role.user, content := utext } := by
    rw [truncateHistory_getLast? _ hne1, List.getLast?_concat]
  refine ⟨?_, ?_, ?_⟩
  · intro m hm
    rcases List.mem_append.mp hm with hmm | hmm
    · exact hns2 m hmm
    · simp only [List.mem_singleton] at hmm
      subst hmm
      simp
  · rw [List.chain'_append]
    refine ⟨hch2, List.chain'_singleton _, ?_⟩
    intro x hx y hy
    simp only [List.head?_cons, Option.mem_def, Option.some_inj] at hy
    subst hy
    rw [Option.mem_def, hlast2, Option.some_inj] at hx
    subst hx
    simp
  · intro m hm
    rw [List.getLast?_concat, Option.some_inj] at hm
    subst hm
    rfl

theorem handle_goodHistory (hs : Histories) (p : MessagePayload)
    (llm : List LLMMessage → LLMResult) (sendOk : Nat → Bool) (u : String)
    (hg : GoodHistory (storedHistory hs u))
    (hllm : ∀ ctx, ∃ s, llm ctx = LLMResult.ok s ∧ s ≠ "") :
    GoodHistory
      (storedHistory (handleIncomingMessage hs p llm sendOk).histories u) := by
  by_cases he : u = p.userId
  · subst he
    obtain ⟨s, hset, hsne⟩ := hllm (llmContext hs p)
    rw [storedHistory, handle_histories_self_ok hs p llm sendOk s hset hsne,
      Option.getD_some]
    exact goodHistory_turn (storedHistory hs p.userId) hg p.text s
  · rw [storedHistory, handle_histories_other hs p llm sendOk u he]
    exact hg

theorem runTurns_goodHistory : ∀ (ts : List TurnInput) (hs : Histories),
    (∀ t ∈ ts, ∀ ctx, ∃ s, t.llm ctx = LLMResult.ok s ∧ s ≠ "") →
    (∀ v, GoodHistory (storedHistory hs v)) →
    ∀ u, GoodHistory (storedHistory (runTurns hs ts) u)
  | [], _, _, hinv, u => hinv u
  | t :: ts, hs, hok, hinv, u =>
    runTurns_goodHistory ts _
      (fun t' ht' => hok t' (List.mem_cons_of_mem _ ht'))
      (fun v => handle_goodHistory hs t.payload t.llm t.sendOk v (hinv v)
        (hok t (List.mem_cons_self _ _)))
      u

theorem chain'_noAdjacent : ∀ (h : List LLMMessage),
    List.Chain' (fun a b : LLMMessage => a.role ≠ b.role) h →
    noAdjacentSameNonSystemRole h = true
  | [], _ => rfl
  | [_], _ => rfl
  | m1 :: m2 :: rest, hc => by
    rw [noAdjacentSameNonSystemRole]
    obtain ⟨h12, htail⟩ := List.chain'_cons.mp hc
    rw [chain'_noAdjacent (m2 :: rest) htail]
    simp [beq_eq_false_iff_ne.mpr h12]

theorem goodHistory_shape (h : List LLMMessage) (hg : GoodHistory h) :
    onlyLeadingSystem h = true ∧ noAdjacentSameNonSystemRole h = true := by
  obtain ⟨hns, hch, _⟩ := hg
  refine ⟨?_, chain'_noAdjacent h hch⟩
  rw [onlyLeadingSystem, List.all_eq_true]
  intro m hm
  have := hns m (List.mem_of_mem_drop hm)
  simpa using this

/-! ### Further lemmas about the truncation policy (claim C6) -/

theorem truncateHistory_take_offset (h : List LLMMessage)
    (hlen : maxHistoryLength < h.length) :
    (truncateHistory h).take (systemPromptOffset h) =
      h.take (systemPromptOffset h) := by
  unfold truncateHistory
  rw [if_pos (by omega)]
  apply List.take_left'
  rw [List.length_take]
  have := systemPromptOffset_le_one h
  simp only [maxHistoryLength] at hlen
  omega

theorem truncateHistory_drop_offset (h : List LLMMessage)
    (hlen : maxHistoryLength < h.length) :
    (truncateHistory h).drop (systemPromptOffset h) <:+
      h.drop (systemPromptOffset h) := by
  unfold truncateHistory
  rw [if_pos (by omega)]
  rw [List.drop_left' (n := systemPromptOffset h)]
  · rw [← List.drop_drop]
    exact List.drop_suffix _ _
  · rw [List.length_take]
    have := systemPromptOffset_le_one h
    simp only [maxHistoryLength] at hlen
    omega

theorem truncateHistory_head_system (h : List LLMMessage) (m : LLMMessage)
    (hh : h.head? = some m) (hsys : m.role = Role.system) :
    (truncateHistory h).head? = some m := by
  unfold truncateHistory
  split
  · have hoff : systemPromptOffset h = 1 := by
      unfold systemPromptOffset
      rw [hh]
      dsimp only
      rw [if_pos hsys]
    rw [hoff]
    cases h with
    | nil => cases hh
    | cons a t =>
      simp only [List.head?_cons, Option.some_inj] at hh
      subst hh
      rfl
  · exact hh

/-! ### Trimming lemmas (claim C7) -/

theorem head?_dropWhile_not {α : Type} (p : α → Bool) :
    ∀ (l : List α) {c : α}, (l.dropWhile p).head? = some c → p c = false
  | [], c, h => by simp [List.dropWhile] at h
  | a :: l, c, h => by
    rw [List.dropWhile_cons] at h
    split at h
    · exact head?_dropWhile_not p l h
    · rename_i hpa
      simp only [List.head?_cons, Option.some_inj] at h
      subst h
      exact Bool.not_eq_true _ |>.mp hpa

theorem getLast?_suffix_of_ne_nil {α : Type} {l₁ l₂ : List α}
    (h : l₁ <:+ l₂) (hne : l₁ ≠ []) : l₁.getLast? = l₂.getLast? := by
  obtain ⟨t, rfl⟩ := h
  rw [List.getLast?_append]
  obtain ⟨x, hx⟩ := Option.isSome_iff_exists.mp (List.getLast?_isSome.mpr hne)
  rw [hx]
  rfl

theorem trimChars_last (cs : List Char) {c : Char}
    (h : (trimChars cs).getLast? = some c) : c.isWhitespace = false := by
  rw [trimChars, List.getLast?_reverse] at h
  exact head?_dropWhile_not _ _ h

theorem trimChars_head (cs : List Char) {c : Char}
    (h : (trimChars cs).head? = some c) : c.isWhitespace = false := by
  rw [trimChars, List.head?_reverse] at h
  have hne : ((cs.dropWhile Char.isWhitespace).reverse.dropWhile
      Char.isWhitespace) ≠ [] := by
    intro hnil
    rw [hnil] at h
    cases h
  rw [getLast?_suffix_of_ne_nil (List.dropWhile_suffix _) hne,
    List.getLast?_reverse] at h
  exact head?_dropWhile_not _ _ h

theorem noEdgeWhitespace_trimString (s : String) :
    noEdgeWhitespace (trimString s) = true := by
  rw [noEdgeWhitespace, Bool.and_eq_true]
  constructor
  · cases hh : (trimString s).data.head? with
    | none => rfl
    | some c =>
      have hc : c.isWhitespace = false := trimChars_head s.data hh
      simp [Option.all, hc]
  · cases hh : (trimString s).data.getLast? with
    | none => rfl
    | some c =>
      have hc : c.isWhitespace = false := trimChars_last s.data hh
      simp [Option.all, hc]

theorem llmContext_length_le (hs : Histories) (p : MessagePayload) :
    (llmContext hs p).length ≤ maxHistoryLength :=
  truncateHistory_length_le _

/-! ### Claim C1 -/

/-- C1, counterexample: after six answered turns of user `"A"` from a fresh
chatbot, the stored history has 11 entries, exceeding `maxHistoryLength`
(10).  The truncation to 10 happens before the LLM call and the assistant
reply is pushed afterwards, so a completed turn can leave 11 entries. -/
theorem C1_counterexample :
    maxHistoryLength <
      (storedHistory (runTurns emptyHistories sixOkTurns) "A").length := by
  decide

/-- C1, amended: for every sequence of inbound turns processed from a fresh
chatbot, the stored history of every user after each completed turn has at most
`maxHistoryLength + 1` (11) entries — not `maxHistoryLength` as claimed. -/
theorem C1_history_bound (ts : List TurnInput) (u : String) :
    (storedHistory (runTurns emptyHistories ts) u).length ≤
      maxHistoryLength + 1 :=
  runTurns_length_le_aux ts emptyHistories
    (fun _ => by simp [storedHistory, emptyHistories]) u

/-! ### Claim C2 -/

/-- C2, counterexample: two turns whose LLM calls reject leave the stored
history of user `"A"` as two consecutive user-role entries, violating the
claimed alternation (no two consecutive entries of the same non-system
role). -/
theorem C2_counterexample :
    (storedHistory (runTurns emptyHistories [errTurn "m1", errTurn "m2"]) "A").map
        (fun m => m.role) = [Role.user, Role.user] ∧
    noAdjacentSameNonSystemRole
      (storedHistory (runTurns emptyHistories [errTurn "m1", errTurn "m2"]) "A") =
      false := by
  decide

/-- C2, amended: between completed turns of any run from a fresh chatbot,
every stored history starts with at most one system-role entry (in fact
none exists) and has no two consecutive entries of the same non-system
role, provided the LLM call of every turn resolves with non-empty text (a
failed or empty turn appends no assistant entry, so the next user entry
breaks alternation, as the counterexample shows). -/
theorem C2_alternation (ts : List TurnInput)
    (hok : ∀ t ∈ ts, ∀ ctx, ∃ s, t.llm ctx = LLMResult.ok s ∧ s ≠ "")
    (u : String) :
    onlyLeadingSystem (storedHistory (runTurns emptyHistories ts) u) = true ∧
    noAdjacentSameNonSystemRole
      (storedHistory (runTurns emptyHistories ts) u) = true :=
  goodHistory_shape _
    (runTurns_goodHistory ts emptyHistories hok (fun _ => goodHistory_nil) u)

/-- C2, witness: the amended theorem instantiated at one answered turn. -/
theorem C2_witness :
    onlyLeadingSystem
      (storedHistory (runTurns emptyHistories [okTurn "m1"]) "A") = true ∧
    noAdjacentSameNonSystemRole
      (storedHistory (runTurns emptyHistories [okTurn "m1"]) "A") = true := by
  apply C2_alternation
  intro t ht ctx
  simp only [List.mem_singleton] at ht
  subst ht
  exact ⟨"r", rfl, by decide⟩

/-! ### Claim C3 -/

/-- C3, counterexample: when the LLM answer is non-empty but the first
`sendMessage` rejects, the `catch` block issues a second `sendMessage`
(the apology), so one turn makes two outbound calls, not exactly one. -/
theorem C3_counterexample :
    (handleIncomingMessage emptyHistories payloadA
        (fun _ => LLMResult.ok "hello") (fun n => n != 0)).sends =
      [("A", "hello"), ("A", apologyText)] := by
  decide

/-- C3, amended: every turn makes at least one and at most two
`sendMessage` calls, all addressed to the `userId` of the payload; it makes
exactly one whenever the first send resolves (a second, apology call
occurs only when the first send rejects). -/
theorem C3_send_count (hs : Histories) (p : MessagePayload)
    (llm : List LLMMessage → LLMResult) (sendOk : Nat → Bool) :
    1 ≤ (handleIncomingMessage hs p llm sendOk).sends.length ∧
    (handleIncomingMessage hs p llm sendOk).sends.length ≤ 2 ∧
    (sendOk 0 = true →
      (handleIncomingMessage hs p llm sendOk).sends.length = 1) ∧
    ∀ s ∈ (handleIncomingMessage hs p llm sendOk).sends, s.1 = p.userId :=
  handle_sends hs p llm sendOk

/-- C3, witness: with all sends resolving, a turn makes exactly one
`sendMessage` call. -/
theorem C3_witness :
    (handleIncomingMessage emptyHistories payloadA
      (fun _ => LLMResult.ok "r") (fun _ => true)).sends.length = 1 :=
  (C3_send_count emptyHistories payloadA
    (fun _ => LLMResult.ok "r") (fun _ => true)).2.2.1 rfl

/-! ### Claim C4 -/

/-- C4, counterexample: when the LLM call rejects and the apology
`sendMessage` also rejects, the rejection escapes `handleIncomingMessage`
(the returned promise rejects), contradicting the claim that no exception
escapes. -/
theorem C4_counterexample :
    (handleIncomingMessage emptyHistories payloadA (fun _ => LLMResult.err)
      (fun _ => false)).threw = true := by
  decide

/-- C4, amended: if the LLM call rejects, the only `sendMessage` call of
the turn
call carries the fixed generic apology, no assistant entry is appended
(the stored history is exactly the truncated history with the user entry),
and no exception escapes provided the apology send itself resolves (if it
rejects, its rejection escapes, as the counterexample shows). -/
theorem C4_llm_failure (hs : Histories) (p : MessagePayload)
    (llm : List LLMMessage → LLMResult) (sendOk : Nat → Bool)
    (hllm : llm (llmContext hs p) = LLMResult.err) :
    (handleIncomingMessage hs p llm sendOk).sends = [(p.userId, apologyText)] ∧
    (handleIncomingMessage hs p llm sendOk).histories p.userId =
      some (llmContext hs p) ∧
    (sendOk 0 = true → (handleIncomingMessage hs p llm sendOk).threw = false) :=
  handle_err_path hs p llm sendOk hllm

/-- C4, witness: the amended theorem at a rejecting LLM with a resolving
apology send. -/
theorem C4_witness :
    (handleIncomingMessage emptyHistories payloadA (fun _ => LLMResult.err)
        (fun _ => true)).sends = [("A", apologyText)] ∧
    (handleIncomingMessage emptyHistories payloadA (fun _ => LLMResult.err)
        (fun _ => true)).threw = false := by
  have h := C4_llm_failure emptyHistories payloadA (fun _ => LLMResult.err)
    (fun _ => true) rfl
  exact ⟨h.1, h.2.2 rfl⟩

/-! ### Claim C5 -/

/-- C5, counterexample: (a) a blank but non-empty completion `" "` is
truthy in JavaScript, so it is sent verbatim and appended as an assistant
entry instead of triggering the fixed fallback notice; (b) when the
history is at the cap, an empty-completion turn also evicts the oldest
entry, so the appended user entry is not the only history change. -/
theorem C5_counterexample :
    (handleIncomingMessage emptyHistories payloadA (fun _ => LLMResult.ok " ")
        (fun _ => true)).sends = [("A", " ")] ∧
    storedHistory (handleIncomingMessage emptyHistories payloadA
        (fun _ => LLMResult.ok " ") (fun _ => true)).histories "A" =
      [{ role := Role.user, content := "hi" },
       { role := Role.assistant, content := " " }] ∧
    storedHistory (runTurns emptyHistories fiveOkThenEmptyTurns) "A" ≠
      storedHistory (runTurns emptyHistories fiveOkTurns) "A" ++
        [{ role := Role.user, content := "m6" }] := by
  refine ⟨by decide, by decide, by decide⟩

/-- C5, amended: if the LLM call resolves with the empty string (only
`""` is falsy; blank whitespace text goes down the success path), the
first `sendMessage` call of the turn carries the fixed fallback notice and
no assistant entry is appended: the stored history is exactly the
truncated history with the user entry (truncation may also evict the
oldest entries when the cap is exceeded). -/
theorem C5_empty_completion (hs : Histories) (p : MessagePayload)
    (llm : List LLMMessage → LLMResult) (sendOk : Nat → Bool)
    (hllm : llm (llmContext hs p) = LLMResult.ok "") :
    (handleIncomingMessage hs p llm sendOk).sends.head? =
      some (p.userId, fallbackText) ∧
    (handleIncomingMessage hs p llm sendOk).histories p.userId =
      some (llmContext hs p) :=
  handle_empty_path hs p llm sendOk hllm

/-- C5, witness: the amended theorem at a turn whose LLM returns `""`. -/
theorem C5_witness :
    (handleIncomingMessage emptyHistories payloadA (fun _ => LLMResult.ok "")
      (fun _ => true)).sends.head? = some ("A", fallbackText) :=
  (C5_empty_completion emptyHistories payloadA (fun _ => LLMResult.ok "")
    (fun _ => true) rfl).1

/-! ### Claim C6 -/

/-- C6: when a history exceeds the cap, the truncation step keeps exactly
`maxHistoryLength` entries, preserves the relative order of the surviving
entries (the result is a sublist), leaves any leading prefix up to the
system-offset untouched, removes only the oldest entries immediately
after that prefix (the remainder is a suffix of the rest), and never
evicts a leading system-role entry. -/
theorem C6_truncation_policy (h : List LLMMessage)
    (hlen : maxHistoryLength < h.length) :
    (truncateHistory h).length = maxHistoryLength ∧
    (truncateHistory h).Sublist h ∧
    (truncateHistory h).take (systemPromptOffset h) =
      h.take (systemPromptOffset h) ∧
    ((truncateHistory h).drop (systemPromptOffset h) <:+
      h.drop (systemPromptOffset h)) ∧
    ∀ m, h.head? = some m → m.role = Role.system →
      (truncateHistory h).head? = some m :=
  ⟨truncateHistory_length_of_gt h hlen,
   truncateHistory_sublist h,
   truncateHistory_take_offset h hlen,
   truncateHistory_drop_offset h hlen,
   fun m hh hsys => truncateHistory_head_system h m hh hsys⟩

/-- C6, witness: the truncation policy at a concrete eleven-entry history
with a leading system entry. -/
theorem C6_witness :
    maxHistoryLength < elevenMessages.length ∧
    (truncateHistory elevenMessages).length = maxHistoryLength ∧
    (truncateHistory elevenMessages).head? =
      some { role := Role.system, content := "s" } := by
  have h := C6_truncation_policy elevenMessages (by decide)
  exact ⟨by decide, h.1, h.2.2.2.2 _ rfl rfl⟩

/-! ### Claim C7 -/

/-- C7, counterexample: `ChatGPTAdapter.generateResponse` returns the
provider content without trimming, so a completion with surrounding
whitespace is returned with its leading and trailing whitespace intact. -/
theorem C7_counterexample :
    chatGPTGenerateResponse (some " hi ") = " hi " ∧
    noEdgeWhitespace (chatGPTGenerateResponse (some " hi ")) = false := by
  refine ⟨rfl, by decide⟩

/-- C7, amended: only `GeminiAdapter.generateResponse` trims — its result
never has leading or trailing whitespace — while
`ChatGPTAdapter.generateResponse` returns the completion content unchanged
(`""` when the content is missing), so its result can carry whitespace. -/
theorem C7_trimming :
    (∀ t, noEdgeWhitespace (geminiGenerateResponse t) = true) ∧
    (∀ c, chatGPTGenerateResponse (some c) = c) ∧
    chatGPTGenerateResponse none = "" := by
  refine ⟨fun t => noEdgeWhitespace_trimString _, fun c => rfl, rfl⟩

/-! ### Claim C8 -/

/-- C8: a turn for one payload leaves the stored history of every other
`userId` unchanged — only the entry keyed by the own `userId` of the payload in the
conversation-history map may change. -/
theorem C8_histories_isolated (hs : Histories) (p : MessagePayload)
    (llm : List LLMMessage → LLMResult) (sendOk : Nat → Bool) (u : String)
    (hu : u ≠ p.userId) :
    (handleIncomingMessage hs p llm sendOk).histories u = hs u :=
  handle_histories_other hs p llm sendOk u hu

/-- C8, witness: a turn of user `"A"` leaves the entry of user `"B"` unchanged. -/
theorem C8_witness :
    (handleIncomingMessage emptyHistories payloadA
      (fun _ => LLMResult.ok "r") (fun _ => true)).histories "B" =
      emptyHistories "B" :=
  C8_histories_isolated emptyHistories payloadA
    (fun _ => LLMResult.ok "r") (fun _ => true) "B" (by decide)

/-! ### Claim C9 -/

/-- C9, counterexample: `ConsoleAdapter.sendMessage` called with a
`userId` other than its console user resolves successfully (it only logs
a warning and prints nothing), rather than failing as claimed. -/
theorem C9_counterexample :
    resolves (consoleSendMessage "other_user" "hello") = true ∧
    consoleSendMessage "other_user" "hello" = Except.ok [] := by
  exact ⟨rfl, rfl⟩

/-- C9, amended: `ConsoleAdapter.sendMessage` never rejects: for the
console user it resolves after printing the bot line, and for any other
`userId` it logs a warning and resolves without printing anything (no
`DeliveryError` is raised; no such error type exists in the code). -/
theorem C9_console_send_never_rejects (userId text : String) :
    resolves (consoleSendMessage userId text) = true ∧
    (userId ≠ CONSOLE_USER_ID →
      consoleSendMessage userId text = Except.ok []) := by
  by_cases h : userId = CONSOLE_USER_ID <;>
    simp [consoleSendMessage, resolves, h]

/-- C9, witness: the amended theorem at a non-console user. -/
theorem C9_witness :
    consoleSendMessage "stranger" "yo" = Except.ok [] :=
  (C9_console_send_never_rejects "stranger" "yo").2 (by decide)

/-! ### Claim C10 -/

/-- C10: the message list a turn passes to the LLM adapter and its
`generateResponse` always has at most `maxHistoryLength` (10) entries,
for every history map, payload and adapter behaviour — the truncation
runs before the call, so the LLM context is bounded even though the
stored history may grow past the cap afterwards. -/
theorem C10_llm_input_bounded (hs : Histories) (p : MessagePayload)
    (llm : List LLMMessage → LLMResult) (sendOk : Nat → Bool) :
    (handleIncomingMessage hs p llm sendOk).llmInput.length ≤
      maxHistoryLength := by
  rw [handle_llmInput]
  exact llmContext_length_le hs p

end Chatbot
